import Mathlib

/-!
# Verification of the PromptNud scheduling engine embedding

Shallow embedding of the availability aggregation / time-slot ranking
subsystem (`backend/internal/core/ai_scheduling`), the Google-calendar
free-slot inversion (`GoogleCalendarService.CalculateFreeSlots`) and the
frontend `ApiClient.fetch` wrapper, together with theorems settling the
spec's testable properties against the code.

Modelling conventions:
* `time.Time` instants are modelled as natural numbers of minutes
  (absolute minutes; `Day()` becomes division by 1440).
* Clock strings `"HH:MM"` are parsed to minutes since midnight;
  Go's `time.Parse` with its error discarded (`_`) yields the zero
  time on failure, modelled as `0`.
* `float64` scores are modelled as rationals.
* UUID generation and `time.Now()` are modelled as explicit input
  streams (`ids : Nat -> Nat`, `now : Nat`).
* The Gemini provider (`aiProvider.RankTimeSlots`, a generative model
  called with temperature 0.3) is modelled as an explicit oracle
  parameter `rank : MeetingContext -> AvailabilityMatrix -> List
  TimeSlotSuggestion`: its output is an unconstrained external input,
  not a function of the meeting data alone.
-/

namespace PromptNud

/-! ## ai_scheduling domain (`domain.go`, `ports.go`) -/

/-- `TimeSlotSuggestion` from `ports.go`: the record the AI provider
returns, with `Date`, `StartTime`, `EndTime` as raw strings and the
score a float (here a rational). -/
structure TimeSlotSuggestion where
  Date : String
  StartTime : String
  EndTime : String
  Score : ℚ
  Rationale : String
  AvailableCount : ℕ
deriving DecidableEq, Repr

/-- `TimeSlot` from `domain.go`: the persisted suggestion entity.
`Date` is an encoded calendar date, `StartTime`/`EndTime` minutes. -/
structure TimeSlot where
  ID : ℕ
  MeetingID : ℕ
  Date : ℕ
  StartTime : ℕ
  EndTime : ℕ
  Score : ℚ
  Rank : ℕ
  Rationale : String
  AvailableCount : ℕ
  CreatedAt : ℕ
deriving DecidableEq, Repr

instance : Inhabited TimeSlot :=
  ⟨{ ID := 0, MeetingID := 0, Date := 0, StartTime := 0, EndTime := 0,
     Score := 0, Rank := 0, Rationale := "", AvailableCount := 0, CreatedAt := 0 }⟩

/-- `MeetingContext` from `domain.go`. -/
structure MeetingContext where
  Title : String
  MeetingType : String
  Duration : ℕ
  PreferredDays : List String
  PreferredTimes : List String
  TotalInvitees : ℕ
deriving DecidableEq, Repr

/-- The meeting entity as used by `service.GenerateSuggestions`
(fields read there: `Title`, `Type`, `DurationMinutes`,
`PreferredDays`, `PreferredTimes`, `Invitees`, plus its identifier). -/
structure Meeting where
  ID : ℕ
  Title : String
  MeetingType : String
  DurationMinutes : ℕ
  PreferredDays : List String
  PreferredTimes : List String
  Invitees : List ℕ
deriving DecidableEq, Repr

/-- An availability record as used by `service.buildAvailabilityMatrix`
(fields read there: `Date`, `StartTime`, `EndTime`; times in minutes). -/
structure Availability where
  Date : ℕ
  StartTime : ℕ
  EndTime : ℕ
deriving DecidableEq, Repr

/-- `AvailabilityMatrix` from `domain.go`: nested map
`date -> timeRange -> inviteeCount`, modelled as a total function that
is zero off the inserted keys (a Go map read returns the zero value on
a missing key). The string keys `Format("2006-01-02")` and
`"HH:MM-HH:MM"` are injective images of the underlying date and
(start, end) pair, so keys are kept as those values. -/
structure AvailabilityMatrix where
  DateSlots : ℕ → ℕ × ℕ → ℕ

/-- `service.buildAvailabilityMatrix`: one increment per availability
record at key (date, (start, end)). -/
def buildAvailabilityMatrix (availabilities : List Availability) : AvailabilityMatrix :=
  { DateSlots :=
      availabilities.foldl
        (fun m avail => fun dateKey timeKey =>
          if dateKey = avail.Date ∧ timeKey = (avail.StartTime, avail.EndTime) then
            m dateKey timeKey + 1
          else
            m dateKey timeKey)
        (fun _ _ => 0) }

/-- Instant `t` on date `d` lies inside the matrix sub-interval keyed
`k` (a sub-interval of the matrix is a time-range key with a positive
recorded count). -/
def matrixContains (m : AvailabilityMatrix) (d t : ℕ) (k : ℕ × ℕ) : Prop :=
  0 < m.DateSlots d k ∧ k.1 ≤ t ∧ t < k.2

instance (m : AvailabilityMatrix) (d t : ℕ) (k : ℕ × ℕ) :
    Decidable (matrixContains m d t k) := by
  unfold matrixContains; infer_instance

/-! ### String parsing (`time.Parse` with discarded error) -/

/-- Split a character list at every occurrence of the separator. -/
def splitOnChar (c : Char) : List Char → List (List Char)
  | [] => [[]]
  | x :: xs =>
    if x = c then [] :: splitOnChar c xs
    else
      match splitOnChar c xs with
      | [] => [[x]]
      | r :: rs => (x :: r) :: rs

/-- Decimal value of a nonempty all-digit character list, `none` on
anything else. -/
def digitsVal (l : List Char) : Option ℕ :=
  if l = [] then none
  else
    l.foldl
      (fun acc? c =>
        match acc? with
        | none => none
        | some acc =>
          if "0".front ≤ c ∧ c ≤ "9".front then
            some (acc * 10 + (c.toNat - "0".front.toNat))
          else none)
      (some 0)

/-- Parse `"HH:MM"` (layout `"15:04"`) to minutes since midnight.
Go's `time.Parse` error is discarded with `_`, so a malformed string
yields the zero time, i.e. `0` minutes. -/
def parseHHMM (s : String) : ℕ :=
  match splitOnChar ":".front s.data with
  | [h, m] =>
    match digitsVal h, digitsVal m with
    | some hh, some mm => if hh < 24 ∧ mm < 60 then hh * 60 + mm else 0
    | _, _ => 0
  | _ => 0

/-- Parse `"YYYY-MM-DD"` (layout `"2006-01-02"`) to an encoded date
`y*10000 + m*100 + d`; malformed input yields the zero date `0`
because the parse error is discarded. -/
def parseDateISO (s : String) : ℕ :=
  match splitOnChar "-".front s.data with
  | [y, m, d] =>
    match digitsVal y, digitsVal m, digitsVal d with
    | some yy, some mm, some dd =>
      if 1 ≤ mm ∧ mm ≤ 12 ∧ 1 ≤ dd ∧ dd ≤ 31 then yy * 10000 + mm * 100 + dd else 0
    | _, _, _ => 0
  | _ => 0

/-! ### `service.GenerateSuggestions` -/

/-- `NewTimeSlot` from `domain.go`, with the fresh UUID and
`time.Now()` passed explicitly. -/
def NewTimeSlot (id meetingID date startTime endTime : ℕ) (score : ℚ)
    (rank : ℕ) (rationale : String) (availableCount now : ℕ) : TimeSlot :=
  { ID := id, MeetingID := meetingID, Date := date, StartTime := startTime,
    EndTime := endTime, Score := score, Rank := rank, Rationale := rationale,
    AvailableCount := availableCount, CreatedAt := now }

/-- The conversion loop of `GenerateSuggestions`: for each AI
suggestion at index `i`, parse its date/time strings and build a
`TimeSlot` with rank `i+1`. -/
def convertLoop (meetingID : ℕ) (ids : ℕ → ℕ) (now : ℕ) :
    ℕ → List TimeSlotSuggestion → List TimeSlot
  | _, [] => []
  | i, suggestion :: rest =>
    NewTimeSlot (ids i) meetingID (parseDateISO suggestion.Date)
        (parseHHMM suggestion.StartTime) (parseHHMM suggestion.EndTime)
        suggestion.Score (i + 1) suggestion.Rationale suggestion.AvailableCount now
      :: convertLoop meetingID ids now (i + 1) rest

/-- The `MeetingContext` built inside `GenerateSuggestions`. -/
def mkMeetingContext (mtg : Meeting) : MeetingContext :=
  { Title := mtg.Title, MeetingType := mtg.MeetingType, Duration := mtg.DurationMinutes,
    PreferredDays := mtg.PreferredDays, PreferredTimes := mtg.PreferredTimes,
    TotalInvitees := mtg.Invitees.length }

/-- `service.GenerateSuggestions` (success path), with the AI provider
as an oracle `rank` and the UUID/clock streams explicit: build the
matrix, build the context, call the provider, convert its suggestions
with ranks assigned in response order. -/
def GenerateSuggestionsWith
    (rank : MeetingContext → AvailabilityMatrix → List TimeSlotSuggestion)
    (mtg : Meeting) (availabilities : List Availability)
    (ids : ℕ → ℕ) (now : ℕ) : List TimeSlot :=
  let matrix := buildAvailabilityMatrix availabilities
  let meetingContext := mkMeetingContext mtg
  let suggestions := rank meetingContext matrix
  convertLoop mtg.ID ids now 0 suggestions

/-! ### Persistence trace of `GenerateSuggestions`

After the AI call, the service issues `DeleteByMeetingID` and then one
`Create` per new slot; an error from any `Create` aborts the loop.
The observable stored states for the meeting are therefore: the
initial store, the store after the delete, and the store after each
successful create (a failure partway simply truncates the sequence of
creates to a prefix). -/

/-- `SuggestionRepository.DeleteByMeetingID` on a stored slot list. -/
def deleteByMeetingID (store : List TimeSlot) (meetingID : ℕ) : List TimeSlot :=
  store.filter (fun slot => slot.MeetingID ≠ meetingID)

/-- The sequence of observable store states during the persistence
phase of `GenerateSuggestions`: initial store, store after the delete,
then one state per successful `Create` of the first `k` new slots
(`k < newSlots.length` models a create failing partway through). -/
def persistStates (store : List TimeSlot) (meetingID : ℕ)
    (newSlots : List TimeSlot) (k : ℕ) : List (List TimeSlot) :=
  store ::
    List.scanl (fun st slot => st ++ [slot])
      (deleteByMeetingID store meetingID) (newSlots.take k)

/-! ## Google calendar free-slot inversion
(`GoogleCalendarService.CalculateFreeSlots`)

Instants are absolute minutes; `Day()` on an instant is `· / 1440`
(day-of-month within one month), and the loop variable `d` ranges over
day indices, with `startDate`/`endDate` taken at midnight. -/

/-- `BusySlot`: a busy interval with absolute start/end instants. -/
structure BusySlot where
  Start : ℕ
  End : ℕ
deriving DecidableEq, Repr

/-- `FreeSlot`: a computed free interval on a given day. -/
structure FreeSlot where
  Date : ℕ
  StartTime : ℕ
  EndTime : ℕ
deriving DecidableEq, Repr

/-- The inner per-day loop of `CalculateFreeSlots`: walk the busy
slots carrying `currentStart`; skip slots whose start's day differs
from `d`; emit a free slot whenever `currentStart` is strictly before
the busy start; advance `currentStart` to the busy end when that is
later; finally emit the tail free slot up to `dayEnd` if nonempty. -/
def freeLoopGo (d dayEnd : ℕ) : ℕ → List BusySlot → List FreeSlot
  | currentStart, [] =>
    if currentStart < dayEnd then
      [{ Date := d, StartTime := currentStart, EndTime := dayEnd }]
    else []
  | currentStart, busy :: rest =>
    if busy.Start / 1440 ≠ d then
      freeLoopGo d dayEnd currentStart rest
    else
      (if currentStart < busy.Start then
        [{ Date := d, StartTime := currentStart, EndTime := busy.Start }]
      else []) ++
      freeLoopGo d dayEnd (if currentStart < busy.End then busy.End else currentStart) rest

/-- `GoogleCalendarService.CalculateFreeSlots`: for each day `d` in
`[startDate, endDate)`, invert the busy slots within the working
bounds `[workingHoursStart:00, workingHoursEnd:00)` of that day. -/
def CalculateFreeSlots (busySlots : List BusySlot) (startDate endDate : ℕ)
    (workingHoursStart workingHoursEnd : ℕ) : List FreeSlot :=
  (List.range (endDate - startDate)).flatMap (fun k =>
    let d := startDate + k
    freeLoopGo d (d * 1440 + workingHoursEnd * 60)
      (d * 1440 + workingHoursStart * 60) busySlots)

/-- Instant `t` is covered by some interval of a busy-slot list. -/
def busyCovers (busySlots : List BusySlot) (t : ℕ) : Prop :=
  ∃ b ∈ busySlots, b.Start ≤ t ∧ t < b.End

instance (busySlots : List BusySlot) (t : ℕ) : Decidable (busyCovers busySlots t) := by
  unfold busyCovers; infer_instance

/-- Instant `t` is covered by some interval of a free-slot list. -/
def freeCovers (freeSlots : List FreeSlot) (t : ℕ) : Prop :=
  ∃ f ∈ freeSlots, f.StartTime ≤ t ∧ t < f.EndTime

instance (freeSlots : List FreeSlot) (t : ℕ) : Decidable (freeCovers freeSlots t) := by
  unfold freeCovers; infer_instance

/-! ## Frontend `ApiClient.fetch` (`api.ts`) -/

/-- A stored suggestion of the previous set for meeting 1. -/
def oldSlotEx : TimeSlot :=
  { ID := 10, MeetingID := 1, Date := 0, StartTime := 540, EndTime := 600,
    Score := 80, Rank := 1, Rationale := "old", AvailableCount := 2, CreatedAt := 0 }

/-- A freshly generated suggestion for meeting 1. -/
def newSlotEx : TimeSlot :=
  { ID := 20, MeetingID := 1, Date := 0, StartTime := 600, EndTime := 660,
    Score := 90, Rank := 1, Rationale := "new", AvailableCount := 3, CreatedAt := 5 }

/-- A concrete meeting used to instantiate the service theorems. -/
def meetingEx : Meeting :=
  { ID := 1, Title := "sync", MeetingType := "general", DurationMinutes := 60,
    PreferredDays := ["monday"], PreferredTimes := ["afternoon"], Invitees := [7, 8, 9] }

/-- The same meeting with an empty invitee roster. -/
def meetingNoInviteesEx : Meeting :=
  { ID := 1, Title := "sync", MeetingType := "general", DurationMinutes := 60,
    PreferredDays := ["monday"], PreferredTimes := ["afternoon"], Invitees := [] }

/-- A well-formed AI suggestion with score 90 and a 60-minute span. -/
def suggestionEx : TimeSlotSuggestion :=
  { Date := "2025-01-10", StartTime := "10:00", EndTime := "11:00",
    Score := 90, Rationale := "fits all", AvailableCount := 3 }

/-- An AI suggestion whose score 150 exceeds the documented range. -/
def suggestionBigScoreEx : TimeSlotSuggestion :=
  { Date := "2025-01-10", StartTime := "10:00", EndTime := "11:00",
    Score := 150, Rationale := "overflow", AvailableCount := 3 }

/-- An AI suggestion with score 50 and a 30-minute span. -/
def suggestionShortEx : TimeSlotSuggestion :=
  { Date := "2025-01-10", StartTime := "10:00", EndTime := "10:30",
    Score := 50, Rationale := "short", AvailableCount := 1 }

/-- A constant UUID stream. -/
def idsEx : ℕ → ℕ := fun i => 100 + i

/-- The slot `GenerateSuggestions` builds from `suggestionEx`
at index 0 with `idsEx` and clock 0. -/
def slotGoodEx : TimeSlot :=
  { ID := 100, MeetingID := 1, Date := 20250110, StartTime := 600, EndTime := 660,
    Score := 90, Rank := 1, Rationale := "fits all", AvailableCount := 3, CreatedAt := 0 }

/-- The slot `GenerateSuggestions` builds from `suggestionBigScoreEx`
at index 0 with `idsEx` and clock 0. -/
def slotBigScoreEx : TimeSlot :=
  { ID := 100, MeetingID := 1, Date := 20250110, StartTime := 600, EndTime := 660,
    Score := 150, Rank := 1, Rationale := "overflow", AvailableCount := 3, CreatedAt := 0 }

/-- The slot `GenerateSuggestions` builds from `suggestionShortEx`
at index 0 with `idsEx` and clock 0. -/
def slotShortEx : TimeSlot :=
  { ID := 100, MeetingID := 1, Date := 20250110, StartTime := 600, EndTime := 630,
    Score := 50, Rank := 1, Rationale := "short", AvailableCount := 1, CreatedAt := 0 }

/-! ## Helper lemmas -/

theorem convertLoop_length (meetingID : ℕ) (ids : ℕ → ℕ) (now : ℕ)
    (i : ℕ) (l : List TimeSlotSuggestion) :
    (convertLoop meetingID ids now i l).length = l.length := by
  induction l generalizing i with
  | nil => rfl
  | cons s rest ih => simp [convertLoop, ih]

theorem convertLoop_map_rank (meetingID : ℕ) (ids : ℕ → ℕ) (now : ℕ)
    (i : ℕ) (l : List TimeSlotSuggestion) :
    (convertLoop meetingID ids now i l).map (fun slot => slot.Rank) =
      List.range' (i + 1) l.length := by
  induction l generalizing i with
  | nil => rfl
  | cons s rest ih => simp [convertLoop, NewTimeSlot, ih, List.range'_succ]

theorem convertLoop_map_score (meetingID : ℕ) (ids : ℕ → ℕ) (now : ℕ)
    (i : ℕ) (l : List TimeSlotSuggestion) :
    (convertLoop meetingID ids now i l).map (fun slot => slot.Score) =
      l.map (fun s => s.Score) := by
  induction l generalizing i with
  | nil => rfl
  | cons s rest ih => simp [convertLoop, NewTimeSlot, ih]

theorem convertLoop_mem (meetingID : ℕ) (ids : ℕ → ℕ) (now : ℕ)
    (i : ℕ) (l : List TimeSlotSuggestion) (slot : TimeSlot)
    (h : slot ∈ convertLoop meetingID ids now i l) :
    ∃ s ∈ l, slot.Score = s.Score ∧
      slot.StartTime = parseHHMM s.StartTime ∧ slot.EndTime = parseHHMM s.EndTime := by
  induction l generalizing i with
  | nil => simp [convertLoop] at h
  | cons s rest ih =>
    simp only [convertLoop, List.mem_cons] at h
    rcases h with h | h
    · exact ⟨s, List.mem_cons_self .., by simp [h, NewTimeSlot]⟩
    · obtain ⟨s', hs', hprop⟩ := ih (i + 1) h
      exact ⟨s', List.mem_cons_of_mem _ hs', hprop⟩

theorem buildAvailabilityMatrix_foldl (l : List Availability)
    (m0 : ℕ → ℕ × ℕ → ℕ) (d : ℕ) (k : ℕ × ℕ) :
    (l.foldl
        (fun m avail => fun dateKey timeKey =>
          if dateKey = avail.Date ∧ timeKey = (avail.StartTime, avail.EndTime) then
            m dateKey timeKey + 1
          else
            m dateKey timeKey)
        m0) d k =
      m0 d k + l.countP (fun a => decide (d = a.Date ∧ k = (a.StartTime, a.EndTime))) := by
  induction l generalizing m0 with
  | nil => simp
  | cons a rest ih =>
    rw [List.foldl_cons, ih, List.countP_cons]
    by_cases hc : d = a.Date ∧ k = (a.StartTime, a.EndTime)
    · simp [hc]; omega
    · simp [hc]

/-! ## Claim theorems -/

/-- C3 (amended): `buildAvailabilityMatrix` does not perform a
breakpoint sweep; the count it records at key `(date, timeRange)`
equals the number of availability records carrying exactly that date
and exactly that time range. -/
theorem buildAvailabilityMatrix_count (l : List Availability) (d : ℕ) (k : ℕ × ℕ) :
    (buildAvailabilityMatrix l).DateSlots d k =
      l.countP (fun a => decide (d = a.Date ∧ k = (a.StartTime, a.EndTime))) := by
  simpa using buildAvailabilityMatrix_foldl l (fun _ _ => 0) d k

/-- C3 (counterexample): with two overlapping availability records on
the same date, the instant 630 lies inside two distinct sub-intervals
of the built matrix, so an instant of the date window does not belong
to exactly one matrix sub-interval. -/
theorem availabilityMatrix_overlapping_subintervals_cx :
    matrixContains
        (buildAvailabilityMatrix
          [{ Date := 0, StartTime := 540, EndTime := 660 },
           { Date := 0, StartTime := 600, EndTime := 720 }]) 0 630 (540, 660) ∧
      matrixContains
        (buildAvailabilityMatrix
          [{ Date := 0, StartTime := 540, EndTime := 660 },
           { Date := 0, StartTime := 600, EndTime := 720 }]) 0 630 (600, 720) ∧
      ((540, 660) : ℕ × ℕ) ≠ (600, 720) := by
  refine ⟨?_, ?_, by decide⟩ <;> · constructor <;> decide

theorem freeLoopGo_start_lt_end (d dayEnd : ℕ) (l : List BusySlot) (cur : ℕ) :
    ∀ f ∈ freeLoopGo d dayEnd cur l, f.StartTime < f.EndTime := by
  induction l generalizing cur with
  | nil =>
    intro f hf
    simp only [freeLoopGo] at hf
    split at hf
    · simp at hf; subst hf; simpa
    · simp at hf
  | cons b rest ih =>
    intro f hf
    simp only [freeLoopGo] at hf
    split at hf
    · exact ih cur f hf
    · rw [List.mem_append] at hf
      rcases hf with hf | hf
      · split at hf
        · simp at hf; subst hf; simpa
        · simp at hf
      · exact ih _ f hf

/-- C9: every free slot returned by `CalculateFreeSlots` is a
non-empty interval: its start is strictly before its end (both
emission sites are guarded by a strict `Before` comparison). -/
theorem calculateFreeSlots_start_lt_end (busySlots : List BusySlot)
    (startDate endDate workingHoursStart workingHoursEnd : ℕ) :
    ∀ f ∈ CalculateFreeSlots busySlots startDate endDate workingHoursStart workingHoursEnd,
      f.StartTime < f.EndTime := by
  intro f hf
  simp only [CalculateFreeSlots, List.mem_flatMap] at hf
  obtain ⟨k, -, hmem⟩ := hf
  exact freeLoopGo_start_lt_end _ _ _ _ f hmem

/-- C9 (witness): on an empty busy list over one day with working
hours 8-22, the single returned slot 08:00-22:00 is non-empty. -/
theorem calculateFreeSlots_start_lt_end_witness :
    ({ Date := 0, StartTime := 480, EndTime := 1320 } : FreeSlot) ∈
        CalculateFreeSlots [] 0 1 8 22 ∧ (480 : ℕ) < 1320 :=
  ⟨by decide, calculateFreeSlots_start_lt_end [] 0 1 8 22
    { Date := 0, StartTime := 480, EndTime := 1320 } (by decide)⟩

theorem freeCovers_append (l₁ l₂ : List FreeSlot) (t : ℕ) :
    freeCovers (l₁ ++ l₂) t ↔ freeCovers l₁ t ∨ freeCovers l₂ t := by
  simp [freeCovers, List.mem_append, or_and_right, exists_or]

theorem freeCovers_singleton (f : FreeSlot) (t : ℕ) :
    freeCovers [f] t ↔ f.StartTime ≤ t ∧ t < f.EndTime := by
  simp [freeCovers]

theorem busyCovers_cons (b : BusySlot) (l : List BusySlot) (t : ℕ) :
    busyCovers (b :: l) t ↔ (b.Start ≤ t ∧ t < b.End) ∨ busyCovers l t := by
  simp [busyCovers, List.exists_mem_cons_iff]

theorem freeLoopGo_covers_iff (d dayEnd : ℕ) (l : List BusySlot) (t : ℕ) (cur : ℕ)
    (hb : ∀ b ∈ l, cur ≤ b.Start ∧ b.Start < b.End ∧ b.End ≤ dayEnd ∧ b.Start / 1440 = d)
    (hp : List.Pairwise (fun a b => a.End ≤ b.Start) l) :
    freeCovers (freeLoopGo d dayEnd cur l) t ↔
      cur ≤ t ∧ t < dayEnd ∧ ¬ busyCovers l t := by
  induction l generalizing cur with
  | nil =>
    simp only [freeLoopGo, freeCovers, busyCovers]
    constructor
    · rintro ⟨f, hf, h1, h2⟩
      split at hf
      · simp only [List.mem_singleton] at hf
        subst hf
        dsimp only at h1 h2
        exact ⟨h1, h2, by rintro ⟨b, hb', -⟩; simp at hb'⟩
      · simp at hf
    · rintro ⟨h1, h2, -⟩
      refine ⟨{ Date := d, StartTime := cur, EndTime := dayEnd }, ?_, h1, h2⟩
      rw [if_pos (show cur < dayEnd by omega)]
      simp
  | cons b rest ih =>
    obtain ⟨hcs, hse, hed, hday⟩ := hb b (List.mem_cons_self ..)
    have hrest : ∀ b' ∈ rest, b.End ≤ b'.Start :=
      fun b' h => (List.pairwise_cons.mp hp).1 b' h
    have hb' : ∀ b' ∈ rest, b.End ≤ b'.Start ∧ b'.Start < b'.End ∧
        b'.End ≤ dayEnd ∧ b'.Start / 1440 = d := by
      intro b' h
      obtain ⟨-, h2, h3, h4⟩ := hb b' (List.mem_cons_of_mem _ h)
      exact ⟨hrest b' h, h2, h3, h4⟩
    have hp' := (List.pairwise_cons.mp hp).2
    have hnB : t < b.End → ¬ busyCovers rest t := by
      rintro ht ⟨b', hmem, hs', he'⟩
      have := hrest b' hmem
      omega
    have hrec := ih b.End hb' hp'
    simp only [freeLoopGo, if_neg (show ¬(b.Start / 1440 ≠ d) by omega),
      if_pos (show cur < b.End by omega)]
    by_cases hcb : cur < b.Start
    · simp only [if_pos hcb]
      rw [freeCovers_append, hrec, busyCovers_cons, freeCovers_singleton]
      dsimp only
      constructor
      · rintro (⟨h1, h2⟩ | ⟨h1, h2, h3⟩)
        · refine ⟨h1, by omega, ?_⟩
          rintro (⟨hs, he⟩ | hB)
          · omega
          · exact hnB (by omega) hB
        · refine ⟨by omega, h2, ?_⟩
          rintro (⟨hs, he⟩ | hB)
          · omega
          · exact h3 hB
      · rintro ⟨h1, h2, h3⟩
        by_cases ht : t < b.Start
        · exact Or.inl ⟨h1, ht⟩
        · refine Or.inr ⟨?_, h2, fun hB => h3 (Or.inr hB)⟩
          have : ¬(b.Start ≤ t ∧ t < b.End) := fun hc => h3 (Or.inl hc)
          omega
    · simp only [if_neg hcb, List.nil_append]
      rw [hrec, busyCovers_cons]
      constructor
      · rintro ⟨h1, h2, h3⟩
        refine ⟨by omega, h2, ?_⟩
        rintro (⟨hs, he⟩ | hB)
        · omega
        · exact h3 hB
      · rintro ⟨h1, h2, h3⟩
        refine ⟨?_, h2, fun hB => h3 (Or.inr hB)⟩
        have : ¬(b.Start ≤ t ∧ t < b.End) := fun hc => h3 (Or.inl hc)
        omega

theorem freeLoopGo_mem_bounds (d dayEnd : ℕ) (l : List BusySlot) (cur : ℕ)
    (hb : ∀ b ∈ l, cur ≤ b.Start ∧ b.Start < b.End ∧ b.End ≤ dayEnd ∧ b.Start / 1440 = d)
    (hp : List.Pairwise (fun a b => a.End ≤ b.Start) l) :
    ∀ f ∈ freeLoopGo d dayEnd cur l,
      cur ≤ f.StartTime ∧ f.StartTime < f.EndTime ∧ f.EndTime ≤ dayEnd := by
  induction l generalizing cur with
  | nil =>
    intro f hf
    simp only [freeLoopGo] at hf
    split at hf
    · simp only [List.mem_singleton] at hf
      subst hf
      dsimp only
      refine ⟨le_rfl, ?_, le_rfl⟩
      omega
    · simp at hf
  | cons b rest ih =>
    obtain ⟨hcs, hse, hed, hday⟩ := hb b (List.mem_cons_self ..)
    have hrest : ∀ b' ∈ rest, b.End ≤ b'.Start :=
      fun b' h => (List.pairwise_cons.mp hp).1 b' h
    have hb' : ∀ b' ∈ rest, b.End ≤ b'.Start ∧ b'.Start < b'.End ∧
        b'.End ≤ dayEnd ∧ b'.Start / 1440 = d := by
      intro b' h
      obtain ⟨-, h2, h3, h4⟩ := hb b' (List.mem_cons_of_mem _ h)
      exact ⟨hrest b' h, h2, h3, h4⟩
    have hp' := (List.pairwise_cons.mp hp).2
    intro f hf
    simp only [freeLoopGo, if_neg (show ¬(b.Start / 1440 ≠ d) by omega),
      if_pos (show cur < b.End by omega), List.mem_append] at hf
    rcases hf with hf | hf
    · split at hf
      · simp only [List.mem_singleton] at hf
        subst hf
        dsimp only
        exact ⟨le_rfl, by omega, by omega⟩
      · simp at hf
    · obtain ⟨g1, g2, g3⟩ := ih b.End hb' hp' f hf
      exact ⟨by omega, g2, g3⟩

theorem freeLoopGo_chain (d dayEnd : ℕ) (l : List BusySlot) (cur : ℕ)
    (hb : ∀ b ∈ l, cur ≤ b.Start ∧ b.Start < b.End ∧ b.End ≤ dayEnd ∧ b.Start / 1440 = d)
    (hp : List.Pairwise (fun a b => a.End ≤ b.Start) l) :
    List.Chain' (fun f g => f.EndTime ≤ g.StartTime) (freeLoopGo d dayEnd cur l) := by
  induction l generalizing cur with
  | nil =>
    simp only [freeLoopGo]
    split
    · simp
    · simp
  | cons b rest ih =>
    obtain ⟨hcs, hse, hed, hday⟩ := hb b (List.mem_cons_self ..)
    have hrest : ∀ b' ∈ rest, b.End ≤ b'.Start :=
      fun b' h => (List.pairwise_cons.mp hp).1 b' h
    have hb' : ∀ b' ∈ rest, b.End ≤ b'.Start ∧ b'.Start < b'.End ∧
        b'.End ≤ dayEnd ∧ b'.Start / 1440 = d := by
      intro b' h
      obtain ⟨-, h2, h3, h4⟩ := hb b' (List.mem_cons_of_mem _ h)
      exact ⟨hrest b' h, h2, h3, h4⟩
    have hp' := (List.pairwise_cons.mp hp).2
    simp only [freeLoopGo, if_neg (show ¬(b.Start / 1440 ≠ d) by omega),
      if_pos (show cur < b.End by omega)]
    by_cases hcb : cur < b.Start
    · simp only [if_pos hcb, List.singleton_append]
      refine List.chain'_cons'.mpr ⟨?_, ih b.End hb' hp'⟩
      intro y hy
      obtain ⟨g1, -, -⟩ :=
        freeLoopGo_mem_bounds d dayEnd rest b.End hb' hp' y (List.mem_of_mem_head? hy)
      simp only
      omega
    · simp only [if_neg hcb, List.nil_append]
      exact ih b.End hb' hp'

theorem CalculateFreeSlots_one_day (busySlots : List BusySlot) (d whS whE : ℕ) :
    CalculateFreeSlots busySlots d (d + 1) whS whE =
      freeLoopGo d (d * 1440 + whE * 60) (d * 1440 + whS * 60) busySlots := by
  have h1 : d + 1 - d = 1 := by omega
  simp [CalculateFreeSlots, h1, List.range_succ]

/-- C2 (amended): for busy intervals within the working bounds
[08:00, 22:00) of a single day that are moreover sorted and pairwise
disjoint (each ends no later than the next starts — the code walks
the list once and never sorts or merges it), the computed free slots
together with the busy intervals exactly partition the bounds: an
in-bounds instant is free iff it is not busy, every free slot is a
non-empty sub-interval of the bounds, and the free slots are pairwise
disjoint (chained in increasing order). -/
theorem calculateFreeSlots_partition (busy : List BusySlot) (d : ℕ)
    (hb : ∀ b ∈ busy,
        d * 1440 + 8 * 60 ≤ b.Start ∧ b.Start < b.End ∧ b.End ≤ d * 1440 + 22 * 60)
    (hp : List.Pairwise (fun a b => a.End ≤ b.Start) busy) :
    (∀ t, d * 1440 + 8 * 60 ≤ t → t < d * 1440 + 22 * 60 →
        (freeCovers (CalculateFreeSlots busy d (d + 1) 8 22) t ↔ ¬ busyCovers busy t)) ∧
    (∀ f ∈ CalculateFreeSlots busy d (d + 1) 8 22,
        d * 1440 + 8 * 60 ≤ f.StartTime ∧ f.StartTime < f.EndTime ∧
          f.EndTime ≤ d * 1440 + 22 * 60) ∧
    List.Chain' (fun f g => f.EndTime ≤ g.StartTime)
      (CalculateFreeSlots busy d (d + 1) 8 22) := by
  have hb' : ∀ b ∈ busy, d * 1440 + 8 * 60 ≤ b.Start ∧ b.Start < b.End ∧
      b.End ≤ d * 1440 + 22 * 60 ∧ b.Start / 1440 = d := by
    intro b h
    obtain ⟨h1, h2, h3⟩ := hb b h
    exact ⟨h1, h2, h3, by omega⟩
  rw [CalculateFreeSlots_one_day]
  refine ⟨?_, freeLoopGo_mem_bounds _ _ _ _ hb' hp, freeLoopGo_chain _ _ _ _ hb' hp⟩
  intro t h1 h2
  rw [freeLoopGo_covers_iff _ _ _ _ _ hb' hp]
  exact ⟨fun h => h.2.2, fun h => ⟨h1, h2, h⟩⟩

/-- C2 (counterexample): the code never sorts the busy list. With the
unsorted busy intervals 10:00-11:00 and 09:00-09:30 of day 0 — both
within the working bounds [08:00, 22:00) — the instant 09:00 (absolute
minute 540) is covered both by a computed free slot and by a busy
interval, so free and busy intervals do not partition the bounds. -/
theorem calculateFreeSlots_partition_unsorted_cx :
    (∀ b ∈ [({ Start := 600, End := 660 } : BusySlot), { Start := 540, End := 570 }],
        0 * 1440 + 8 * 60 ≤ b.Start ∧ b.Start < b.End ∧ b.End ≤ 0 * 1440 + 22 * 60) ∧
    freeCovers
      (CalculateFreeSlots [{ Start := 600, End := 660 }, { Start := 540, End := 570 }]
        0 1 8 22) 540 ∧
    busyCovers [({ Start := 600, End := 660 } : BusySlot), { Start := 540, End := 570 }]
      540 := by
  refine ⟨by decide, by decide, by decide⟩

/-- C2 (witness): the partition theorem applied to the single busy
interval 10:00-11:00 on day 0. -/
theorem calculateFreeSlots_partition_witness :
    (∀ t, 0 * 1440 + 8 * 60 ≤ t → t < 0 * 1440 + 22 * 60 →
        (freeCovers (CalculateFreeSlots [{ Start := 600, End := 660 }] 0 (0 + 1) 8 22) t ↔
          ¬ busyCovers [({ Start := 600, End := 660 } : BusySlot)] t)) ∧
    (∀ f ∈ CalculateFreeSlots [{ Start := 600, End := 660 }] 0 (0 + 1) 8 22,
        0 * 1440 + 8 * 60 ≤ f.StartTime ∧ f.StartTime < f.EndTime ∧
          f.EndTime ≤ 0 * 1440 + 22 * 60) ∧
    List.Chain' (fun f g => f.EndTime ≤ g.StartTime)
      (CalculateFreeSlots [{ Start := 600, End := 660 }] 0 (0 + 1) 8 22) :=
  calculateFreeSlots_partition [{ Start := 600, End := 660 }] 0 (by decide) (by simp)

theorem scanl_append_mem (l : List TimeSlot) (init : List TimeSlot)
    (s : List TimeSlot)
    (hs : s ∈ List.scanl (fun st slot => st ++ [slot]) init l) :
    ∀ x ∈ s, x ∈ init ∨ x ∈ l := by
  induction l generalizing init with
  | nil =>
    simp only [List.scanl, List.mem_singleton] at hs
    subst hs
    exact fun x hx => Or.inl hx
  | cons a rest ih =>
    simp only [List.scanl, List.mem_cons] at hs
    rcases hs with rfl | hs
    · exact fun x hx => Or.inl hx
    · intro x hx
      rcases ih (init ++ [a]) hs x hx with h | h
      · rcases List.mem_append.mp h with h' | h'
        · exact Or.inl h'
        · simp only [List.mem_singleton] at h'
          exact Or.inr (h' ▸ List.mem_cons_self ..)
      · exact Or.inr (List.mem_cons_of_mem _ h)

/-- C5: during the persistence phase of `GenerateSuggestions` the old
suggestion set is deleted wholesale before any new slot is created, so
no observable store state — including the states reached when a
`Create` fails after `k` successful creates — contains both a
suggestion of the previous set for the meeting and a suggestion of the
new set (new slots carry fresh IDs, modelling `uuid.New()`). -/
theorem suggestions_replacement_no_mix (store : List TimeSlot) (meetingID : ℕ)
    (newSlots : List TimeSlot) (k : ℕ)
    (hfresh : ∀ n ∈ newSlots, ∀ o ∈ store, n.ID ≠ o.ID) :
    ∀ s ∈ persistStates store meetingID newSlots k,
      ∀ o ∈ store, o.MeetingID = meetingID →
        ∀ n ∈ newSlots, ¬ (o ∈ s ∧ n ∈ s) := by
  intro s hs o ho homid n hn ⟨hos, hns⟩
  simp only [persistStates, List.mem_cons] at hs
  rcases hs with rfl | hs
  · exact hfresh n hn n hns rfl
  · rcases scanl_append_mem _ _ _ hs o hos with h | h
    · rw [deleteByMeetingID, List.mem_filter] at h
      have hne : o.MeetingID ≠ meetingID := by simpa using h.2
      exact hne homid
    · exact hfresh o (List.mem_of_mem_take h) o ho rfl

/-- C5 (witness): the no-mix property applied to a concrete store
holding one old suggestion for meeting 1, one new slot, and a create
failure after zero successful creates. -/
theorem suggestions_replacement_no_mix_witness :
    ¬ (oldSlotEx ∈ [oldSlotEx] ∧ newSlotEx ∈ [oldSlotEx]) :=
  suggestions_replacement_no_mix [oldSlotEx] 1 [newSlotEx] 0 (by decide)
    [oldSlotEx] (by decide) oldSlotEx (by decide) rfl newSlotEx (by decide)

/-- C1 (amended): `GenerateSuggestions` is deterministic only relative
to the external AI response: whenever the provider returns the same
suggestion list, the same meeting and ID/clock streams yield an
identical slot list, whatever the availabilities were. It is not a
function of the MeetingContext and availabilities alone, because the
ranking is delegated to a generative model (temperature 0.3), whose
response is an independent input. -/
theorem generateSuggestions_deterministic_given_response
    (rank rank' : MeetingContext → AvailabilityMatrix → List TimeSlotSuggestion)
    (mtg : Meeting) (avails avails' : List Availability) (ids : ℕ → ℕ) (now : ℕ)
    (h : rank (mkMeetingContext mtg) (buildAvailabilityMatrix avails) =
        rank' (mkMeetingContext mtg) (buildAvailabilityMatrix avails')) :
    GenerateSuggestionsWith rank mtg avails ids now =
      GenerateSuggestionsWith rank' mtg avails' ids now := by
  simp only [GenerateSuggestionsWith]
  rw [h]

/-- C1 (counterexample): two invocations on identical meeting data and
identical (empty) availabilities, whose AI provider responses differ —
as two samples of a generative model may — produce different output,
so the output is not byte-identical across invocations. -/
theorem generateSuggestions_not_input_deterministic_cx :
    GenerateSuggestionsWith (fun _ _ => [suggestionEx]) meetingEx [] idsEx 0 ≠
      GenerateSuggestionsWith (fun _ _ => []) meetingEx [] idsEx 0 := by
  intro h
  have hlen := congrArg List.length h
  simp [GenerateSuggestionsWith, convertLoop_length] at hlen

/-- C1 (witness): with equal provider responses, the outputs coincide
even across different availability inputs. -/
theorem generateSuggestions_deterministic_given_response_witness :
    GenerateSuggestionsWith (fun _ _ => [suggestionEx]) meetingEx [] idsEx 0 =
      GenerateSuggestionsWith (fun _ _ => [suggestionEx]) meetingEx
        [{ Date := 0, StartTime := 540, EndTime := 600 }] idsEx 0 :=
  generateSuggestions_deterministic_given_response _ _ meetingEx _ _ idsEx 0 rfl

/-- C4 (amended): the service applies no clamping or validation to
scores; each returned slot's score is exactly the corresponding AI
suggestion's score, so the returned scores lie in [0, 100] exactly
when the provider's response scores do. -/
theorem scores_passthrough_bounds
    (rank : MeetingContext → AvailabilityMatrix → List TimeSlotSuggestion)
    (mtg : Meeting) (avails : List Availability) (ids : ℕ → ℕ) (now : ℕ)
    (h : ∀ s ∈ rank (mkMeetingContext mtg) (buildAvailabilityMatrix avails),
        0 ≤ s.Score ∧ s.Score ≤ 100) :
    ∀ slot ∈ GenerateSuggestionsWith rank mtg avails ids now,
      0 ≤ slot.Score ∧ slot.Score ≤ 100 := by
  intro slot hslot
  simp only [GenerateSuggestionsWith] at hslot
  obtain ⟨s, hs, hsc, -, -⟩ := convertLoop_mem _ _ _ _ _ _ hslot
  rw [hsc]
  exact h s hs

/-- C4 (counterexample): a provider response carrying score 150 is
stored verbatim, so a returned slot's score can fall outside [0, 100]. -/
theorem score_out_of_bounds_cx :
    ∃ slot ∈ GenerateSuggestionsWith (fun _ _ => [suggestionBigScoreEx])
        meetingEx [] idsEx 0,
      ¬ (0 ≤ slot.Score ∧ slot.Score ≤ 100) := by
  exact ⟨slotBigScoreEx, by decide, by decide⟩

/-- C4 (witness): with an in-range provider response, every returned
score is in range. -/
theorem scores_passthrough_bounds_witness :
    0 ≤ slotGoodEx.Score ∧ slotGoodEx.Score ≤ 100 :=
  scores_passthrough_bounds (fun _ _ => [suggestionEx]) meetingEx [] idsEx 0 (by decide)
    slotGoodEx (by decide)

/-- C6 (amended): the service performs no sorting or tie-breaking of
its own: ranks 1, 2, 3, ... are assigned in the order of the AI
response, and the returned scores are exactly the response scores in
response order — so the list is sorted by non-increasing score only
when the provider's response happens to be. -/
theorem suggestions_order_follows_response
    (rank : MeetingContext → AvailabilityMatrix → List TimeSlotSuggestion)
    (mtg : Meeting) (avails : List Availability) (ids : ℕ → ℕ) (now : ℕ) :
    (GenerateSuggestionsWith rank mtg avails ids now).map (fun slot => slot.Rank) =
        List.range' 1
          ((rank (mkMeetingContext mtg) (buildAvailabilityMatrix avails)).length) ∧
      (GenerateSuggestionsWith rank mtg avails ids now).map (fun slot => slot.Score) =
        (rank (mkMeetingContext mtg) (buildAvailabilityMatrix avails)).map
          (fun s => s.Score) := by
  constructor
  · simpa using convertLoop_map_rank mtg.ID ids now 0
      (rank (mkMeetingContext mtg) (buildAvailabilityMatrix avails))
  · simpa using convertLoop_map_score mtg.ID ids now 0
      (rank (mkMeetingContext mtg) (buildAvailabilityMatrix avails))

/-- C6 (counterexample): a provider response listing a score-50 slot
before a score-90 slot is returned in that order, so the first
suggestion's score is strictly below the second's, violating
non-increasing order. -/
theorem suggestions_not_sorted_cx :
    ((GenerateSuggestionsWith (fun _ _ => [suggestionShortEx, suggestionEx])
          meetingEx [] idsEx 0).getD 0 default).Score <
      ((GenerateSuggestionsWith (fun _ _ => [suggestionShortEx, suggestionEx])
          meetingEx [] idsEx 0).getD 1 default).Score := by
  decide

/-- C7 (amended): the returned interval endpoints are the parses of
the AI response strings, unvalidated; every returned slot spans
exactly `DurationMinutes` precisely when every response suggestion
does. -/
theorem duration_from_response
    (rank : MeetingContext → AvailabilityMatrix → List TimeSlotSuggestion)
    (mtg : Meeting) (avails : List Availability) (ids : ℕ → ℕ) (now : ℕ)
    (h : ∀ s ∈ rank (mkMeetingContext mtg) (buildAvailabilityMatrix avails),
        parseHHMM s.EndTime = parseHHMM s.StartTime + mtg.DurationMinutes) :
    ∀ slot ∈ GenerateSuggestionsWith rank mtg avails ids now,
      slot.EndTime = slot.StartTime + mtg.DurationMinutes := by
  intro slot hslot
  simp only [GenerateSuggestionsWith] at hslot
  obtain ⟨s, hs, -, hst, het⟩ := convertLoop_mem _ _ _ _ _ _ hslot
  rw [het, hst]
  exact h s hs

/-- C7 (counterexample): for a meeting of 60 minutes, a provider
response spanning 10:00-10:30 yields a stored slot of 30 minutes: the
interval length does not equal the context duration. -/
theorem duration_mismatch_cx :
    ∃ slot ∈ GenerateSuggestionsWith (fun _ _ => [suggestionShortEx])
        meetingEx [] idsEx 0,
      slot.EndTime - slot.StartTime ≠ meetingEx.DurationMinutes := by
  exact ⟨slotShortEx, by decide, by decide⟩

/-- C7 (witness): with a 60-minute response slot and a 60-minute
meeting, the stored slot spans the duration. -/
theorem duration_from_response_witness :
    slotGoodEx.EndTime = slotGoodEx.StartTime + meetingEx.DurationMinutes :=
  duration_from_response (fun _ _ => [suggestionEx]) meetingEx [] idsEx 0 (by decide)
    slotGoodEx (by decide)

/-- C8 (amended): with zero invitees the service performs no division
at all (the base-score formula lives in the AI prompt, not in code)
and simply proceeds: `TotalInvitees = 0` is passed to the provider and
one slot per response suggestion is returned; no distinguished empty
"no participants" result exists. -/
theorem zero_invitees_passthrough
    (rank : MeetingContext → AvailabilityMatrix → List TimeSlotSuggestion)
    (mtg : Meeting) (avails : List Availability) (ids : ℕ → ℕ) (now : ℕ)
    (h : mtg.Invitees = []) :
    (mkMeetingContext mtg).TotalInvitees = 0 ∧
      (GenerateSuggestionsWith rank mtg avails ids now).length =
        (rank (mkMeetingContext mtg) (buildAvailabilityMatrix avails)).length := by
  constructor
  · simp [mkMeetingContext, h]
  · simp [GenerateSuggestionsWith, convertLoop_length]

/-- C8 (counterexample): with an empty invitee roster (zero total
participants) and a nonempty provider response, `GenerateSuggestions`
returns a nonempty list, not the empty "no participants" result the
claim requires. -/
theorem zero_invitees_not_empty_cx :
    (mkMeetingContext meetingNoInviteesEx).TotalInvitees = 0 ∧
      GenerateSuggestionsWith (fun _ _ => [suggestionEx])
          meetingNoInviteesEx [] idsEx 0 ≠ [] := by
  exact ⟨by decide, by decide⟩

/-- C8 (witness): the pass-through length equality at the concrete
zero-invitee meeting. -/
theorem zero_invitees_passthrough_witness :
    (mkMeetingContext meetingNoInviteesEx).TotalInvitees = 0 ∧
      (GenerateSuggestionsWith (fun _ _ => [suggestionEx])
          meetingNoInviteesEx [] idsEx 0).length =
        ((fun (_ : MeetingContext) (_ : AvailabilityMatrix) => [suggestionEx])
          (mkMeetingContext meetingNoInviteesEx) (buildAvailabilityMatrix [])).length :=
  zero_invitees_passthrough _ meetingNoInviteesEx [] idsEx 0 rfl

end PromptNud
